import Mathlib

set_option maxRecDepth 4000
set_option linter.unusedVariables false

/-!
Verification of the advanced-vector repository (src/advanced-vector/vector.h).

The C++ Vector<T> owns a RawMemory<T> block (a buffer of capacity raw slots)
plus a logical size.  We embed a vector state as a list of optional slots:
the slot list has length equal to the capacity of the RawMemory buffer, a
slot holds some t when a T object is constructed in it and none when the
slot is raw (uninitialized) memory.  Machine pointers are replaced by slot
indices.  Element transfers that may throw (std::uninitialized_copy_n with
a throwing copy constructor) are modelled by an oracle telling which
copy-constructor invocation throws; the cleanup guarantee of the standard
uninitialized algorithms (already-constructed objects are destroyed before
the exception propagates) is part of the transfer model.  Observable
element-lifetime and allocation effects are recorded as event traces.
-/

namespace AdvVector

/-- State of a C++ Vector<T> (vector.h lines 101-126): the RawMemory buffer
data_ as a list of slots (length = capacity_) and the logical size_. -/
structure Vector (T : Type) where
  data : List (Option T)
  size : Nat
  deriving DecidableEq

variable {T : Type}

/-- Capacity() (lines 108-110): the capacity of the owned RawMemory block. -/
def Vector.capacity (v : Vector T) : Nat := v.data.length

/-- The constructed elements in the first size_ slots, in index order. -/
def Vector.elems (v : Vector T) : List T := (v.data.take v.size).filterMap id

/-- The class invariant: size_ never exceeds the capacity, slots 0..size_-1
hold constructed objects and the remaining slots are raw memory. -/
def Vector.WF (v : Vector T) : Prop :=
  v.size ≤ v.capacity ∧
  v.data = v.elems.map some ++ List.replicate (v.capacity - v.size) none

instance [DecidableEq T] (v : Vector T) : Decidable v.WF :=
  inferInstanceAs (Decidable (v.size ≤ v.capacity ∧
    v.data = v.elems.map some ++ List.replicate (v.capacity - v.size) none))

/-- Observable allocation and element-lifetime events of an operation. -/
inductive Event (T : Type) where
  | alloc (n : Nat)
  | dealloc
  | copyCtor (val : T)
  | moveCtor (val : T)
  | valueCtor (val : T)
  | ctor (val : T)
  | copyAssign (val : T)
  | destroy (val : T)
  deriving DecidableEq

/-- Vector() (line 161): size 0, capacity 0, null buffer. -/
def defaultVector : Vector T := ⟨[], 0⟩

/-- explicit Vector(size_t size) (lines 164-170): allocates capacity = size
and value-constructs every slot; dflt is the value-initialized T
(zero for arithmetic element types). -/
def sizedVector (dflt : T) (n : Nat) : Vector T :=
  ⟨(List.replicate n dflt).map some, n⟩

/-- Vector(const Vector&) (lines 173-180): allocates capacity = other.size_
and copy-constructs the other elements. -/
def vecCopy (v : Vector T) : Vector T := ⟨v.elems.map some, v.size⟩

/-- Vector(Vector&&) (lines 183-187): default-initializes and swaps with
other.  Returns (the new vector, the state left in the moved-from source). -/
def Vector.MoveCtor (v : Vector T) : Vector T × Vector T := (v, ⟨[], 0⟩)

/-- Swap (lines 238-242): exchanges data_ and size_ of the two vectors. -/
def Vector.SwapPair (a b : Vector T) : Vector T × Vector T := (b, a)

/-- operator=(Vector&&) (lines 230-236): when this != &rhs (the same flag
models pointer identity of the two operands) the contents are swapped;
self-assignment is skipped.  Returns ((new destination, new source), events). -/
def Vector.MoveAssign (same : Bool) (dst src : Vector T) :
    (Vector T × Vector T) × List (Event T) :=
  if same then ((dst, src), []) else ((src, dst), [])

/-- operator=(const Vector&) (lines 195-227).  same models this == &rhs.
When the destination capacity cannot hold the source elements the code uses
copy-and-swap; otherwise it reuses the existing slots: overwrites the common
prefix by element copy-assignment, then either copy-constructs the extra
source suffix in raw slots or destroys the excess destination suffix. -/
def Vector.CopyAssign (same : Bool) (dst src : Vector T) :
    Vector T × List (Event T) :=
  if same then (dst, [])
  else if dst.capacity < src.size then
    (vecCopy src,
     Event.alloc src.size :: src.elems.map Event.copyCtor ++
       dst.elems.map Event.destroy ++ [Event.dealloc])
  else if dst.size < src.size then
    (⟨src.elems.map some ++ dst.data.drop src.size, src.size⟩,
     (src.elems.take dst.size).map Event.copyAssign ++
       (src.elems.drop dst.size).map Event.copyCtor)
  else
    (⟨src.elems.map some ++ List.replicate (dst.size - src.size) none ++
        dst.data.drop dst.size, src.size⟩,
     src.elems.map Event.copyAssign ++ (dst.elems.drop src.size).map Event.destroy)

/-- Reserve (lines 248-269), non-throwing transfer.  mm is the value of the
compile-time condition is_nothrow_move_constructible_v or not
is_copy_constructible_v: true selects uninitialized_move_n, false selects
uninitialized_copy_n.  A new block of exactly new_capacity slots is
allocated, the size_ elements are transferred, the blocks are swapped, the
old elements are destroyed and the old block is deallocated. -/
def Vector.Reserve (mm : Bool) (v : Vector T) (newCapacity : Nat) :
    Vector T × List (Event T) :=
  if newCapacity ≤ v.capacity then (v, [])
  else
    (⟨v.elems.map some ++ List.replicate (newCapacity - v.size) none, v.size⟩,
     Event.alloc newCapacity ::
       (v.elems.map fun t => if mm then Event.moveCtor t else Event.copyCtor t) ++
       v.elems.map Event.destroy ++ [Event.dealloc])

/-- Resize (lines 271-283): shrinking destroys the slots new_size..size_-1,
growing first calls Reserve(new_size) and then value-constructs the slots
size_..new_size-1; size_ is then set to new_size. -/
def Vector.Resize (mm : Bool) (dflt : T) (v : Vector T) (newSize : Nat) :
    Vector T × List (Event T) :=
  if newSize < v.size then
    (⟨v.data.take newSize ++ List.replicate (v.capacity - newSize) none, newSize⟩,
     (v.elems.drop newSize).map Event.destroy)
  else
    (⟨(v.Reserve mm newSize).1.data.take v.size ++
        List.replicate (newSize - v.size) (some dflt) ++
        (v.Reserve mm newSize).1.data.drop newSize, newSize⟩,
     (v.Reserve mm newSize).2 ++
       (List.replicate (newSize - v.size) dflt).map Event.valueCtor)

/-- EmplaceBack (lines 286-311), non-throwing construction: at capacity a
block of size_ == 0 ? 1 : size_ * 2 slots is allocated, the new element x is
constructed at index size_ of the new block, the old elements are
transferred before it and the blocks swapped; otherwise x is constructed
in place at slot size_. -/
def Vector.EmplaceBack (mm : Bool) (v : Vector T) (x : T) : Vector T :=
  if v.size == v.capacity then
    ⟨v.elems.map some ++ [some x] ++
       List.replicate ((if v.size == 0 then 1 else v.size * 2) - v.size - 1) none,
     v.size + 1⟩
  else
    ⟨v.data.set v.size (some x), v.size + 1⟩

/-- PushBack (lines 315-324): delegates to EmplaceBack. -/
def Vector.PushBack (mm : Bool) (v : Vector T) (x : T) : Vector T :=
  v.EmplaceBack mm x

/-- PopBack (lines 328-332): destroys the object in slot size_ - 1 and
decrements size_.  No emptiness check is performed by the source. -/
def Vector.PopBack (v : Vector T) : Vector T × List (Event T) :=
  (⟨v.data.set (v.size - 1) none, v.size - 1⟩,
   match v.data.getD (v.size - 1) none with
   | some t => [Event.destroy t]
   | none => [])

/-- State assigned by the model to an execution of the source that is
undefined behaviour: an empty block carrying a nonzero logical size, an
explicitly invalid vector, so that no property of the source can be
derived about such an execution. -/
def undefinedState (v : Vector T) : Vector T := ⟨[], v.size + 1⟩

/-- Emplace (lines 364-430), non-throwing construction and transfer.
posIndex = std::distance(cbegin(), pos).  At capacity: new block of
size_ == 0 ? 1 : size_ * 2 slots, the new element constructed at posIndex,
the prefix transferred to 0..posIndex-1 and the suffix to posIndex+1
onward, then swap.  With spare capacity and size_ == 0: construct in
place.  With spare capacity, 0 < size_ and posIndex < size_: the last
element is moved one slot right, the slots posIndex..size_-2 are shifted
right by std::move_backward (line 417; std::copy_backward at line 420 in
the copying branch) and the new element is placed at posIndex, whose net
effect is the insertion of x at posIndex.  With spare capacity, 0 < size_
and posIndex = size_ (the end position, reachable through the public
interface), the very same code hands std::move_backward the inverted
range from begin() + size_ down to end() - 2 = begin() + size_ - 1,
violating the precondition of the algorithm: that execution is undefined
behaviour (the path also move-assigns into the raw slot at line 409 and
placement-news over a live object at line 424), so the model maps it to
the explicitly invalid undefinedState instead of inventing a result. -/
def Vector.Emplace (mm : Bool) (v : Vector T) (posIndex : Nat) (x : T) : Vector T :=
  if v.size == v.capacity then
    ⟨(v.elems.take posIndex).map some ++ [some x] ++
       (v.elems.drop posIndex).map some ++
       List.replicate ((if v.size == 0 then 1 else v.size * 2) - v.size - 1) none,
     v.size + 1⟩
  else if v.size == 0 then
    ⟨v.data.set posIndex (some x), 1⟩
  else if posIndex < v.size then
    ⟨(v.elems.take posIndex ++ [x] ++ v.elems.drop posIndex).map some ++
       List.replicate (v.capacity - v.size - 1) none, v.size + 1⟩
  else
    undefinedState v

/-- Insert (lines 434-443): delegates to Emplace. -/
def Vector.Insert (mm : Bool) (v : Vector T) (posIndex : Nat) (x : T) : Vector T :=
  v.Emplace mm posIndex x

/-- Erase (lines 446-455): left-shifts the elements after posIndex by one
via move assignment, destroys the last slot and decrements size_. -/
def Vector.Erase (v : Vector T) (posIndex : Nat) : Vector T :=
  ⟨(v.elems.take posIndex ++ v.elems.drop (posIndex + 1)).map some ++
     List.replicate (v.capacity - v.size + 1) none, v.size - 1⟩

/-- std::uninitialized_copy_n for an element type whose copy constructor may
throw.  copyOk k tells whether the k-th copy-constructor invocation (k a
global running counter) succeeds.  Returns (the constructed copies, or none
when an invocation threw; the updated counter; the event trace).  Per the
standard, when an invocation throws the algorithm destroys the objects it
already constructed before letting the exception escape. -/
def copyN (copyOk : Nat → Bool) : Nat → List T → Option (List T) × Nat × List (Event T)
  | cnt, [] => (some [], cnt, [])
  | cnt, x :: xs =>
    if copyOk cnt then
      match copyN copyOk (cnt + 1) xs with
      | (some ys, cnt2, ev) => (some (x :: ys), cnt2, Event.copyCtor x :: ev)
      | (none, cnt2, ev) => (none, cnt2, Event.copyCtor x :: ev ++ [Event.destroy x])
    else (none, cnt + 1, [])

/-- Outcome of a call on a vector whose element type may throw on copy:
the state of the vector object after the call (after stack unwinding when
an exception escapes), whether an exception propagated to the caller, the
updated copy-invocation counter and the event trace. -/
structure OpResult (T : Type) where
  post : Vector T
  thrown : Bool
  counter : Nat
  events : List (Event T)
  deriving DecidableEq

/-- Reserve (lines 248-269) for an element type whose copy constructor may
throw and whose move constructor is not noexcept: the constexpr branch
selects std::uninitialized_copy_n (line 262).  When the transfer throws,
the partial copies are destroyed by the algorithm, the new RawMemory block
is deallocated during unwinding, and data_ and size_ are never touched. -/
def Vector.ReserveThrowing (copyOk : Nat → Bool) (cnt : Nat) (v : Vector T)
    (newCapacity : Nat) : OpResult T :=
  if newCapacity ≤ v.capacity then ⟨v, false, cnt, []⟩
  else
    match copyN copyOk cnt v.elems with
    | (some copies, cnt2, ev) =>
        ⟨⟨copies.map some ++ List.replicate (newCapacity - v.size) none, v.size⟩,
         false, cnt2,
         Event.alloc newCapacity :: ev ++ v.elems.map Event.destroy ++ [Event.dealloc]⟩
    | (none, cnt2, ev) =>
        ⟨v, true, cnt2, Event.alloc newCapacity :: ev ++ [Event.dealloc]⟩

/-- Emplace (lines 364-430) on a full vector (size_ == Capacity()) for an
element type whose copy constructor may throw and whose move constructor is
not noexcept, so both SafeCopyingOrMoving calls run uninitialized_copy_n.
ctorOk tells whether constructing the new element at new_data + pos_index
(line 373) succeeds; that construction is not guarded, so its exception
propagates and unwinding only deallocates the new block.  The two transfers
are guarded by catch blocks that do NOT rethrow (lines 380-382, 389-391):
after the first catch (which destroys the new element) or the second catch
(which destroys the slots before pos_index only) execution falls through to
the swap, the destruction of the old elements and the size_ increment.
A failed transfer therefore leaves uninitialized holes among the first
size_ + 1 slots of the block that gets installed.  In the branch where both
transfers fail, the second catch calls std::destroy on slots that were
already cleaned up, which destroys no live object. -/
def Vector.EmplaceGrowThrowing (copyOk : Nat → Bool) (ctorOk : Bool) (cnt : Nat)
    (v : Vector T) (posIndex : Nat) (x : T) : OpResult T :=
  let newCapacity := if v.size == 0 then 1 else v.size * 2
  if ctorOk then
    match copyN copyOk cnt (v.elems.take posIndex) with
    | (some preCopies, cnt1, ev1) =>
      match copyN copyOk cnt1 (v.elems.drop posIndex) with
      | (some sufCopies, cnt2, ev2) =>
          ⟨⟨preCopies.map some ++ [some x] ++ sufCopies.map some ++
              List.replicate (newCapacity - v.size - 1) none, v.size + 1⟩,
           false, cnt2,
           Event.alloc newCapacity :: Event.ctor x :: ev1 ++ ev2 ++
             v.elems.map Event.destroy ++ [Event.dealloc]⟩
      | (none, cnt2, ev2) =>
          ⟨⟨List.replicate posIndex none ++ [some x] ++
              List.replicate (newCapacity - posIndex - 1) none, v.size + 1⟩,
           false, cnt2,
           Event.alloc newCapacity :: Event.ctor x :: ev1 ++ ev2 ++
             (v.elems.take posIndex).map Event.destroy ++
             v.elems.map Event.destroy ++ [Event.dealloc]⟩
    | (none, cnt1, ev1) =>
      match copyN copyOk cnt1 (v.elems.drop posIndex) with
      | (some sufCopies, cnt2, ev2) =>
          ⟨⟨List.replicate (posIndex + 1) none ++ sufCopies.map some ++
              List.replicate (newCapacity - v.size - 1) none, v.size + 1⟩,
           false, cnt2,
           Event.alloc newCapacity :: Event.ctor x :: ev1 ++ Event.destroy x :: ev2 ++
             v.elems.map Event.destroy ++ [Event.dealloc]⟩
      | (none, cnt2, ev2) =>
          ⟨⟨List.replicate newCapacity none, v.size + 1⟩, false, cnt2,
           Event.alloc newCapacity :: Event.ctor x :: ev1 ++ Event.destroy x :: ev2 ++
             v.elems.map Event.destroy ++ [Event.dealloc]⟩
  else ⟨v, true, cnt, [Event.alloc newCapacity, Event.dealloc]⟩

/-- Extracts the value of a copy-construction event. -/
def copyCtorVal : Event T → Option T
  | Event.copyCtor t => some t
  | _ => none

/-- Extracts the value of a destruction event. -/
def destroyVal : Event T → Option T
  | Event.destroy t => some t
  | _ => none

/-- assert(index < size_) in Vector::operator[] (line 119): true iff the
assertion passes. -/
def idxAssertPasses (v : Vector T) (i : Nat) : Bool := decide (i < v.size)

/-- The only assertion evaluated during PopBack() (line 330): the expression
data_ + size_ - 1 calls RawMemory::operator+ with offset size_ (and then
subtracts one from the returned pointer), so assert(offset <= capacity_)
(line 50) runs with offset = size_.  True iff that assertion passes. -/
def popBackAssertPasses (v : Vector T) : Bool := decide (v.size ≤ v.capacity)

theorem Vector.WF.size_le {v : Vector T} (h : v.WF) : v.size ≤ v.capacity := h.1

theorem Vector.WF.data_eq {v : Vector T} (h : v.WF) :
    v.data = v.elems.map some ++ List.replicate (v.capacity - v.size) none := h.2

theorem Vector.WF.elems_length {v : Vector T} (h : v.WF) : v.elems.length = v.size := by
  have h2 := congrArg List.length h.2
  have h1 := h.1
  simp [Vector.capacity] at h2 h1
  omega

theorem elems_mk (l : List T) (m : Nat) :
    (Vector.mk (l.map some ++ List.replicate m none) l.length).elems = l := by
  show ((l.map some ++ List.replicate m none).take l.length).filterMap id = l
  rw [List.take_left' (by simp), List.filterMap_map]
  exact List.filterMap_some l

theorem WF_mk (l : List T) (m : Nat) :
    (Vector.mk (l.map some ++ List.replicate m none) l.length).WF := by
  refine ⟨by simp [Vector.capacity], ?_⟩
  rw [elems_mk]
  simp [Vector.capacity]

theorem elems_of_len (l : List T) (m n : Nat) (hn : n = l.length) :
    (Vector.mk (l.map some ++ List.replicate m none) n).elems = l := by
  subst hn; exact elems_mk l m

theorem WF_of_len (l : List T) (m n : Nat) (hn : n = l.length) :
    (Vector.mk (l.map some ++ List.replicate m none) n).WF := by
  subst hn; exact WF_mk l m

theorem elems_of_len_nil (l : List T) (n : Nat) (hn : n = l.length) :
    (Vector.mk (l.map some) n).elems = l := by
  have h := elems_of_len l 0 n hn
  simpa using h

theorem WF_of_len_nil (l : List T) (n : Nat) (hn : n = l.length) :
    (Vector.mk (l.map some) n).WF := by
  have h := WF_of_len l 0 n hn
  simpa using h

theorem Vector.WF.take_elems {v : Vector T} (h : v.WF) {k : Nat} (hk : k ≤ v.size) :
    v.data.take k = (v.elems.take k).map some := by
  rw [h.data_eq, List.take_append_of_le_length (by simp [h.elems_length]; omega),
      List.map_take]

theorem Vector.WF.drop_elems {v : Vector T} (h : v.WF) {k : Nat} (hk : v.size ≤ k) :
    v.data.drop k = List.replicate (v.capacity - k) none := by
  rw [h.data_eq, List.drop_append_eq_append_drop,
      List.drop_of_length_le (by simp [h.elems_length]; omega),
      List.drop_replicate, List.nil_append]
  congr 1
  have h1 := h.size_le
  simp [h.elems_length]
  omega

theorem set_none_block (l : List (Option T)) (m : Nat) (x : T) (hm : 0 < m) :
    (l ++ List.replicate m none).set l.length (some x) =
      l ++ some x :: List.replicate (m - 1) none := by
  rw [List.set_append_right _ _ (Nat.le_refl _), Nat.sub_self]
  congr 1
  cases m with
  | zero => omega
  | succ k => simp [List.replicate_succ]

theorem defaultVector_WF : (defaultVector : Vector T).WF := ⟨Nat.le_refl 0, rfl⟩

theorem sizedVector_WF (dflt : T) (n : Nat) : (sizedVector dflt n).WF :=
  WF_of_len_nil (List.replicate n dflt) n (by simp)

theorem sizedVector_elems (dflt : T) (n : Nat) :
    (sizedVector dflt n).elems = List.replicate n dflt :=
  elems_of_len_nil (List.replicate n dflt) n (by simp)

theorem vecCopy_WF {v : Vector T} (h : v.WF) : (vecCopy v).WF :=
  WF_of_len_nil v.elems v.size h.elems_length.symm

theorem vecCopy_elems {v : Vector T} (h : v.WF) : (vecCopy v).elems = v.elems :=
  elems_of_len_nil v.elems v.size h.elems_length.symm

theorem MoveCtor_src_WF (v : Vector T) : (v.MoveCtor).2.WF := ⟨Nat.le_refl 0, rfl⟩

theorem Reserve_WF {v : Vector T} (h : v.WF) (mm : Bool) (k : Nat) :
    (v.Reserve mm k).1.WF := by
  unfold Vector.Reserve
  split
  · exact h
  · exact WF_of_len v.elems (k - v.size) v.size h.elems_length.symm

theorem Reserve_elems {v : Vector T} (h : v.WF) (mm : Bool) (k : Nat) :
    (v.Reserve mm k).1.elems = v.elems := by
  unfold Vector.Reserve
  split
  · rfl
  · exact elems_of_len v.elems (k - v.size) v.size h.elems_length.symm

theorem Reserve_size (v : Vector T) (mm : Bool) (k : Nat) :
    (v.Reserve mm k).1.size = v.size := by
  unfold Vector.Reserve
  split <;> rfl

theorem Reserve_capacity {v : Vector T} (h : v.WF) (mm : Bool) (k : Nat) :
    (v.Reserve mm k).1.capacity = max v.capacity k := by
  unfold Vector.Reserve
  split
  · rename_i hle
    exact (Nat.max_eq_left hle).symm
  · rename_i hgt
    have h1 := h.size_le
    simp only [Vector.capacity] at h1 hgt ⊢
    simp only [List.length_append, List.length_map, List.length_replicate,
      h.elems_length]
    omega

theorem set_at_size {v : Vector T} (h : v.WF) (hlt : v.size < v.capacity) (x : T) :
    v.data.set v.size (some x) =
      (v.elems ++ [x]).map some ++ List.replicate (v.capacity - v.size - 1) none := by
  have hvs : (v.elems.map some).length = v.size := by simp [h.elems_length]
  rw [h.data_eq, ← hvs, set_none_block _ _ x (by rw [hvs]; omega)]
  simp [List.append_assoc]

theorem EmplaceBack_WF {v : Vector T} (h : v.WF) (mm : Bool) (x : T) :
    (v.EmplaceBack mm x).WF := by
  unfold Vector.EmplaceBack
  split
  · have hw := WF_of_len (v.elems ++ [x])
      ((if v.size == 0 then 1 else v.size * 2) - v.size - 1) (v.size + 1)
      (by simp [h.elems_length])
    simpa [List.append_assoc] using hw
  · rename_i hnot
    have hlt : v.size < v.capacity := by
      have h1 := h.size_le
      simp at hnot
      omega
    rw [set_at_size h hlt x]
    exact WF_of_len (v.elems ++ [x]) (v.capacity - v.size - 1) (v.size + 1)
      (by simp [h.elems_length])

theorem EmplaceBack_elems {v : Vector T} (h : v.WF) (mm : Bool) (x : T) :
    (v.EmplaceBack mm x).elems = v.elems ++ [x] := by
  unfold Vector.EmplaceBack
  split
  · have hw := elems_of_len (v.elems ++ [x])
      ((if v.size == 0 then 1 else v.size * 2) - v.size - 1) (v.size + 1)
      (by simp [h.elems_length])
    simpa [List.append_assoc] using hw
  · rename_i hnot
    have hlt : v.size < v.capacity := by
      have h1 := h.size_le
      simp at hnot
      omega
    rw [set_at_size h hlt x]
    exact elems_of_len (v.elems ++ [x]) (v.capacity - v.size - 1) (v.size + 1)
      (by simp [h.elems_length])

theorem PopBack_WF {v : Vector T} (h : v.WF) (hpos : 0 < v.size) :
    (v.PopBack).1.WF := by
  have hx : v.size - 1 < v.data.length := by
    have h1 := h.size_le
    simp only [Vector.capacity] at h1
    omega
  show (Vector.mk (v.data.set (v.size - 1) none) (v.size - 1)).WF
  rw [List.set_eq_take_append_cons_drop, if_pos hx,
      h.take_elems (by omega)]
  have hs1 : v.size - 1 + 1 = v.size := by omega
  rw [hs1, h.drop_elems (Nat.le_refl _)]
  have hw := WF_of_len (v.elems.take (v.size - 1)) (v.capacity - v.size + 1) (v.size - 1)
    (by simp [h.elems_length]; try omega)
  simpa [List.replicate_succ] using hw

theorem Emplace_size (mm : Bool) (v : Vector T) (posIndex : Nat) (x : T) :
    (v.Emplace mm posIndex x).size = v.size + 1 := by
  unfold Vector.Emplace
  split
  · rfl
  · split
    · rename_i h0
      simp at h0
      show 1 = v.size + 1
      omega
    · split
      · rfl
      · rfl

theorem Emplace_WF {v : Vector T} (h : v.WF) {posIndex : Nat}
    (hpos : posIndex ≤ v.size)
    (hdef : posIndex < v.size ∨ v.size = v.capacity ∨ v.size = 0)
    (mm : Bool) (x : T) :
    (v.Emplace mm posIndex x).WF := by
  unfold Vector.Emplace
  split
  · have hw := WF_of_len (v.elems.take posIndex ++ [x] ++ v.elems.drop posIndex)
      ((if v.size == 0 then 1 else v.size * 2) - v.size - 1) (v.size + 1)
      (by simp [h.elems_length]; omega)
    simpa [List.append_assoc] using hw
  · rename_i hnot
    have hlt : v.size < v.capacity := by
      have h1 := h.size_le
      simp at hnot
      omega
    split
    · rename_i h0
      simp at h0
      have hp0 : posIndex = 0 := by omega
      have he : v.elems = [] := by
        have := h.elems_length
        rw [h0] at this
        exact List.length_eq_zero.mp this
      rw [hp0, ← h0, set_at_size h hlt x, he]
      exact WF_of_len [x] (v.capacity - v.size - 1) 1 (by simp)
    · rename_i h0
      split
      · have hw := WF_of_len (v.elems.take posIndex ++ [x] ++ v.elems.drop posIndex)
          (v.capacity - v.size - 1) (v.size + 1)
          (by simp [h.elems_length]; omega)
        simpa [List.append_assoc] using hw
      · rename_i hge
        simp at hnot h0
        rcases hdef with h1 | h2 | h3
        · exact absurd h1 hge
        · exact absurd h2 hnot
        · exact absurd h3 h0

theorem Emplace_elems {v : Vector T} (h : v.WF) {posIndex : Nat}
    (hpos : posIndex ≤ v.size)
    (hdef : posIndex < v.size ∨ v.size = v.capacity ∨ v.size = 0)
    (mm : Bool) (x : T) :
    (v.Emplace mm posIndex x).elems =
      v.elems.take posIndex ++ [x] ++ v.elems.drop posIndex := by
  unfold Vector.Emplace
  split
  · have hw := elems_of_len (v.elems.take posIndex ++ [x] ++ v.elems.drop posIndex)
      ((if v.size == 0 then 1 else v.size * 2) - v.size - 1) (v.size + 1)
      (by simp [h.elems_length]; omega)
    simpa [List.append_assoc] using hw
  · rename_i hnot
    have hlt : v.size < v.capacity := by
      have h1 := h.size_le
      simp at hnot
      omega
    split
    · rename_i h0
      simp at h0
      have hp0 : posIndex = 0 := by omega
      have he : v.elems = [] := by
        have := h.elems_length
        rw [h0] at this
        exact List.length_eq_zero.mp this
      rw [hp0, ← h0, set_at_size h hlt x, he]
      have hw := elems_of_len [x] (v.capacity - v.size - 1) 1 (by simp)
      simpa [he, hp0] using hw
    · rename_i h0
      split
      · have hw := elems_of_len (v.elems.take posIndex ++ [x] ++ v.elems.drop posIndex)
          (v.capacity - v.size - 1) (v.size + 1)
          (by simp [h.elems_length]; omega)
        simpa [List.append_assoc] using hw
      · rename_i hge
        simp at hnot h0
        rcases hdef with h1 | h2 | h3
        · exact absurd h1 hge
        · exact absurd h2 hnot
        · exact absurd h3 h0

theorem Erase_WF {v : Vector T} (h : v.WF) {posIndex : Nat}
    (hpos : posIndex < v.size) : (v.Erase posIndex).WF :=
  WF_of_len (v.elems.take posIndex ++ v.elems.drop (posIndex + 1))
    (v.capacity - v.size + 1) (v.size - 1)
    (by simp [h.elems_length]; omega)

theorem Erase_elems {v : Vector T} (h : v.WF) {posIndex : Nat}
    (hpos : posIndex < v.size) :
    (v.Erase posIndex).elems = v.elems.take posIndex ++ v.elems.drop (posIndex + 1) :=
  elems_of_len (v.elems.take posIndex ++ v.elems.drop (posIndex + 1))
    (v.capacity - v.size + 1) (v.size - 1)
    (by simp [h.elems_length]; omega)

theorem CopyAssign_WF {dst src : Vector T} (hd : dst.WF) (hs : src.WF) (same : Bool) :
    (Vector.CopyAssign same dst src).1.WF := by
  unfold Vector.CopyAssign
  split
  · exact hd
  · split
    · exact vecCopy_WF hs
    · split
      · rename_i hc hlt
        rw [hd.drop_elems (Nat.le_of_lt hlt)]
        exact WF_of_len src.elems (dst.capacity - src.size) src.size hs.elems_length.symm
      · rename_i hc hge
        rw [hd.drop_elems (Nat.le_refl _)]
        have hw := WF_of_len src.elems
          (dst.size - src.size + (dst.capacity - dst.size)) src.size hs.elems_length.symm
        simpa [List.append_assoc] using hw

theorem Resize_grow_data {v : Vector T} (h : v.WF) (mm : Bool) (dflt : T) {n : Nat}
    (hsz : v.size ≤ n) :
    (v.Reserve mm n).1.data.take v.size ++
        List.replicate (n - v.size) (some dflt) ++
        (v.Reserve mm n).1.data.drop n =
      (v.elems ++ List.replicate (n - v.size) dflt).map some ++
        List.replicate ((v.Reserve mm n).1.capacity - n) none := by
  have hr : (v.Reserve mm n).1.WF := Reserve_WF h mm n
  have rs : (v.Reserve mm n).1.size = v.size := Reserve_size v mm n
  have re : (v.Reserve mm n).1.elems = v.elems := Reserve_elems h mm n
  have ht : (v.Reserve mm n).1.data.take v.size = v.elems.map some := by
    rw [hr.take_elems (by rw [rs]), re,
        List.take_of_length_le (Nat.le_of_eq h.elems_length)]
  have hd : (v.Reserve mm n).1.data.drop n =
      List.replicate ((v.Reserve mm n).1.capacity - n) none :=
    hr.drop_elems (by rw [rs]; exact hsz)
  rw [ht, hd]
  simp [List.append_assoc]

theorem Resize_WF {v : Vector T} (h : v.WF) (mm : Bool) (dflt : T) (n : Nat) :
    (v.Resize mm dflt n).1.WF := by
  unfold Vector.Resize
  split
  · rename_i hlt
    rw [h.take_elems (Nat.le_of_lt hlt)]
    exact WF_of_len (v.elems.take n) (v.capacity - n) n
      (by simp [h.elems_length]; omega)
  · rename_i hge
    have hsz : v.size ≤ n := Nat.le_of_not_lt hge
    rw [Resize_grow_data h mm dflt hsz]
    exact WF_of_len (v.elems ++ List.replicate (n - v.size) dflt)
      ((v.Reserve mm n).1.capacity - n) n (by simp [h.elems_length]; omega)

theorem copyN_fail_balanced (copyOk : Nat → Bool) :
    ∀ (l : List T) (cnt : Nat), (copyN copyOk cnt l).1 = none →
      List.Perm (((copyN copyOk cnt l).2.2).filterMap destroyVal)
        (((copyN copyOk cnt l).2.2).filterMap copyCtorVal)
  | [], cnt, h => by simp [copyN] at h
  | x :: xs, cnt, h => by
    by_cases hc : copyOk cnt
    · rcases hrec : copyN copyOk (cnt + 1) xs with ⟨o, cnt2, ev⟩
      cases o with
      | some ys =>
        rw [copyN, if_pos hc, hrec] at h
        simp at h
      | none =>
        have ih := copyN_fail_balanced copyOk xs (cnt + 1) (by rw [hrec])
        rw [hrec] at ih
        simp only at ih
        rw [copyN, if_pos hc, hrec]
        simp only [List.filterMap_cons, List.filterMap_append, destroyVal, copyCtorVal]
        simp only [List.filterMap_cons, List.filterMap_nil, List.append_nil,
          destroyVal, copyCtorVal]
        exact (List.perm_append_singleton x _).trans (ih.cons x)
    · rw [copyN, if_neg hc]
      simp

/-- Claim C1: when a copy construction throws during the transfer performed
by Reserve (for an element type whose copy constructor may throw, so the
constexpr branch copies), the exception propagates to the caller (the
hypothesis thrown = true), every element already constructed in the new
block is destructed (the destruction trace is a permutation of the
copy-construction trace) and the original vector — size, capacity and every
element — is unchanged: the strong exception guarantee. -/
theorem Reserve_strong_exception_guarantee (copyOk : Nat → Bool) (cnt : Nat)
    (v : Vector T) (newCapacity : Nat)
    (h : (v.ReserveThrowing copyOk cnt newCapacity).thrown = true) :
    (v.ReserveThrowing copyOk cnt newCapacity).post = v ∧
    List.Perm
      ((v.ReserveThrowing copyOk cnt newCapacity).events.filterMap destroyVal)
      ((v.ReserveThrowing copyOk cnt newCapacity).events.filterMap copyCtorVal) := by
  unfold Vector.ReserveThrowing at h ⊢
  by_cases hcap : newCapacity ≤ v.capacity
  · rw [if_pos hcap] at h
    simp at h
  · rw [if_neg hcap] at h ⊢
    rcases hrec : copyN copyOk cnt v.elems with ⟨o, cnt2, ev⟩
    cases o with
    | some copies =>
      rw [hrec] at h
      simp at h
    | none =>
      refine ⟨rfl, ?_⟩
      have ih := copyN_fail_balanced copyOk v.elems cnt (by rw [hrec])
      rw [hrec] at ih
      simp only at ih
      simp only [List.filterMap_cons, List.filterMap_append, List.filterMap_nil,
        List.append_nil, destroyVal, copyCtorVal]
      exact ih

/-- Witness for C1: a vector of three elements, reserving to capacity 6 with
a copy constructor that throws on its second invocation. -/
theorem Reserve_strong_exception_guarantee_witness :
    ((Vector.ReserveThrowing (fun k => k == 0) 0
        (Vector.mk [some 1, some 2, some 3] 3 : Vector Nat) 6).thrown = true) ∧
    ((Vector.ReserveThrowing (fun k => k == 0) 0
        (Vector.mk [some 1, some 2, some 3] 3 : Vector Nat) 6).post =
          Vector.mk [some 1, some 2, some 3] 3 ∧
     List.Perm
       ((Vector.ReserveThrowing (fun k => k == 0) 0
          (Vector.mk [some 1, some 2, some 3] 3 : Vector Nat) 6).events.filterMap
            destroyVal)
       ((Vector.ReserveThrowing (fun k => k == 0) 0
          (Vector.mk [some 1, some 2, some 3] 3 : Vector Nat) 6).events.filterMap
            copyCtorVal)) :=
  ⟨by decide, Reserve_strong_exception_guarantee (fun k => k == 0) 0
      (Vector.mk [some 1, some 2, some 3] 3) 6 (by decide)⟩

/-- Claim C2 is violated by the source: evaluating the growth path of
Emplace at the concrete failing input — a full vector holding [10, 20]
(size = capacity = 2), insertion position 1, copy constructor throwing on
its first transfer invocation — shows that the exception does NOT propagate
(the catch blocks at lines 380-382 and 389-391 have no rethrow), the call
completes normally, and the installed block has uninitialized holes at
slots 0 and 1 while size_ is incremented to 3: the class invariant is
destroyed and the original elements are lost, contradicting both the claim
and the intent documented in the specification. -/
theorem Emplace_transfer_failure_swallowed :
    (Vector.mk [some 10, some 20] 2 : Vector Nat).WF ∧
    (Vector.mk [some 10, some 20] 2 : Vector Nat).size =
      (Vector.mk [some 10, some 20] 2 : Vector Nat).capacity ∧
    ((Vector.mk [some 10, some 20] 2 : Vector Nat).EmplaceGrowThrowing
        (fun k => k != 0) true 0 1 99).thrown = false ∧
    ((Vector.mk [some 10, some 20] 2 : Vector Nat).EmplaceGrowThrowing
        (fun k => k != 0) true 0 1 99).post =
      Vector.mk [none, none, some 20, none] 3 ∧
    ¬ ((Vector.mk [some 10, some 20] 2 : Vector Nat).EmplaceGrowThrowing
        (fun k => k != 0) true 0 1 99).post.WF := by decide

/-- Claim C3 counterexample: move assignment is implemented by Swap
(lines 230-236), so the moved-from source receives the old destination
contents.  With destination [5] and source [7] the moved-from source ends
with size 1 and capacity 1, not the empty state the claim requires. -/
theorem MoveAssign_source_not_empty :
    ¬ (((Vector.MoveAssign false (Vector.mk [some 5] 1 : Vector Nat)
          (Vector.mk [some 7] 1)).1.2).size = 0 ∧
       ((Vector.MoveAssign false (Vector.mk [some 5] 1 : Vector Nat)
          (Vector.mk [some 7] 1)).1.2).capacity = 0) := by decide

/-- Claim C3 amended: move construction transfers the whole state to the
destination (same elements in order) and leaves the source empty with
size 0 and capacity 0; move assignment swaps the two vectors, so the
destination holds exactly the former source state (all elements in original
order) while the moved-from source is left holding the former destination
state, which is a valid vector but not empty in general. -/
theorem move_semantics (v dst src : Vector T) (hd : dst.WF) :
    (v.MoveCtor).1 = v ∧
    (v.MoveCtor).2.size = 0 ∧ (v.MoveCtor).2.capacity = 0 ∧ (v.MoveCtor).2.WF ∧
    (Vector.MoveAssign false dst src).1.1 = src ∧
    (Vector.MoveAssign false dst src).1.2 = dst ∧
    (Vector.MoveAssign false dst src).1.2.WF :=
  ⟨rfl, rfl, rfl, MoveCtor_src_WF v, rfl, rfl, hd⟩

/-- Witness for the amended C3 at concrete vectors. -/
theorem move_semantics_witness :
    (Vector.mk [some 5] 1 : Vector Nat).WF ∧
    ((Vector.mk [some 3, none] 1 : Vector Nat).MoveCtor.1 =
        Vector.mk [some 3, none] 1 ∧
     (Vector.mk [some 3, none] 1 : Vector Nat).MoveCtor.2.size = 0 ∧
     (Vector.mk [some 3, none] 1 : Vector Nat).MoveCtor.2.capacity = 0 ∧
     (Vector.mk [some 3, none] 1 : Vector Nat).MoveCtor.2.WF ∧
     (Vector.MoveAssign false (Vector.mk [some 5] 1 : Vector Nat)
        (Vector.mk [some 7] 1)).1.1 = Vector.mk [some 7] 1 ∧
     (Vector.MoveAssign false (Vector.mk [some 5] 1 : Vector Nat)
        (Vector.mk [some 7] 1)).1.2 = Vector.mk [some 5] 1 ∧
     (Vector.MoveAssign false (Vector.mk [some 5] 1 : Vector Nat)
        (Vector.mk [some 7] 1)).1.2.WF) :=
  ⟨by decide, move_semantics (Vector.mk [some 3, none] 1) (Vector.mk [some 5] 1)
      (Vector.mk [some 7] 1) (by decide)⟩

/-- Claim C4: every insertion performed on a full vector (size_ equal to
capacity) — EmplaceBack, PushBack, Emplace, Insert — allocates a new block
of capacity max(1, currentCapacity * 2); growth from capacity 0 yields 1. -/
theorem growth_doubles_capacity (mm : Bool) (v : Vector T) (x : T) (pos : Nat)
    (h : v.WF) (hfull : v.size = v.capacity) (hpos : pos ≤ v.size) :
    (v.EmplaceBack mm x).capacity = max 1 (v.capacity * 2) ∧
    (v.PushBack mm x).capacity = max 1 (v.capacity * 2) ∧
    (v.Emplace mm pos x).capacity = max 1 (v.capacity * 2) ∧
    (v.Insert mm pos x).capacity = max 1 (v.capacity * 2) := by
  have hf : v.size = v.data.length := hfull
  have hEB : (v.EmplaceBack mm x).capacity = max 1 (v.capacity * 2) := by
    unfold Vector.EmplaceBack
    rw [if_pos (by simp [hfull])]
    simp only [Vector.capacity, List.length_append, List.length_map,
      List.length_replicate, List.length_cons, List.length_nil, h.elems_length]
    split
    · rename_i h0
      simp at h0
      omega
    · rename_i h0
      simp at h0
      omega
  have hEm : (v.Emplace mm pos x).capacity = max 1 (v.capacity * 2) := by
    unfold Vector.Emplace
    rw [if_pos (by simp [hfull])]
    simp only [Vector.capacity, List.length_append, List.length_map,
      List.length_replicate, List.length_cons, List.length_nil, List.length_take,
      List.length_drop, h.elems_length]
    split
    · rename_i h0
      simp at h0
      omega
    · rename_i h0
      simp at h0
      omega
  exact ⟨hEB, hEB, hEm, hEm⟩

/-- Witness for C4: a full vector of two elements doubles to capacity 4,
and the empty vector grows to capacity 1. -/
theorem growth_doubles_capacity_witness :
    ((Vector.mk [some 1, some 2] 2 : Vector Nat).WF ∧
     (Vector.mk [some 1, some 2] 2 : Vector Nat).size =
       (Vector.mk [some 1, some 2] 2 : Vector Nat).capacity ∧
     (1 : Nat) ≤ (Vector.mk [some 1, some 2] 2 : Vector Nat).size) ∧
    ((Vector.mk [some 1, some 2] 2 : Vector Nat).EmplaceBack true 9 |>.capacity)
        = max 1 ((Vector.mk [some 1, some 2] 2 : Vector Nat).capacity * 2) ∧
    ((Vector.mk [some 1, some 2] 2 : Vector Nat).PushBack true 9 |>.capacity)
        = max 1 ((Vector.mk [some 1, some 2] 2 : Vector Nat).capacity * 2) ∧
    ((Vector.mk [some 1, some 2] 2 : Vector Nat).Emplace true 1 9 |>.capacity)
        = max 1 ((Vector.mk [some 1, some 2] 2 : Vector Nat).capacity * 2) ∧
    ((Vector.mk [some 1, some 2] 2 : Vector Nat).Insert true 1 9 |>.capacity)
        = max 1 ((Vector.mk [some 1, some 2] 2 : Vector Nat).capacity * 2) :=
  ⟨⟨by decide, by decide, by decide⟩,
   growth_doubles_capacity true (Vector.mk [some 1, some 2] 2) 9 1
     (by decide) (by decide) (by decide)⟩

/-- Claim C5: Reserve with a requested capacity at most the current one is
a no-op: the returned state is the argument itself (capacity, size and all
elements unchanged, no reallocation) and the event trace is empty, so no
element copy or move constructor runs. -/
theorem Reserve_noop_within_capacity (mm : Bool) (v : Vector T) (k : Nat)
    (h : k ≤ v.capacity) : v.Reserve mm k = (v, []) := by
  unfold Vector.Reserve
  rw [if_pos h]

/-- Witness for C5 at a concrete vector with spare capacity. -/
theorem Reserve_noop_within_capacity_witness :
    2 ≤ (Vector.mk [some 4, none] 1 : Vector Nat).capacity ∧
    (Vector.mk [some 4, none] 1 : Vector Nat).Reserve true 2 =
      (Vector.mk [some 4, none] 1, []) :=
  ⟨by decide,
   Reserve_noop_within_capacity true (Vector.mk [some 4, none] 1) 2 (by decide)⟩

/-- Claim C9 counterexample: the claim states that PopBack on an empty
vector triggers a debug assertion failure.  PopBack itself contains no
assert; the only assertion on its path is assert(offset <= capacity_) in
RawMemory::operator+, evaluated with offset = size_ = 0, and on the empty
vector it passes — so no assertion fails and the subsequent behaviour is
silent undefined behaviour. -/
theorem PopBack_empty_assert_passes :
    popBackAssertPasses (Vector.mk ([] : List (Option Nat)) 0) = true := by decide

/-- Claim C9 amended: indexed access with index at or beyond size_ fails
the debug assertion assert(index < size_) of operator[]; PopBack triggers
no assertion on any well-formed vector, in particular not on the empty
one, where it is (unasserted) undefined behaviour. -/
theorem assertion_behaviour (v w : Vector T) (i : Nat)
    (hi : v.size ≤ i) (hw : w.WF) :
    idxAssertPasses v i = false ∧ popBackAssertPasses w = true := by
  constructor
  · simp [idxAssertPasses]
    omega
  · simp [popBackAssertPasses]
    exact hw.1

/-- Witness for the amended C9: out-of-range access on [8] at index 5, and
PopBack on the empty vector. -/
theorem assertion_behaviour_witness :
    ((Vector.mk [some 8] 1 : Vector Nat).size ≤ 5 ∧
     (Vector.mk ([] : List (Option Nat)) 0).WF) ∧
    (idxAssertPasses (Vector.mk [some 8] 1 : Vector Nat) 5 = false ∧
     popBackAssertPasses (Vector.mk ([] : List (Option Nat)) 0) = true) :=
  ⟨⟨by decide, by decide⟩,
   assertion_behaviour (Vector.mk [some 8] 1) (Vector.mk [] 0) 5
     (by decide) (by decide)⟩

/-- Claim C10: self-assignment (this == &rhs, both operands the same
vector value) is a no-op for both the copy-assignment and the
move-assignment operator: the vector is returned unchanged — same size,
capacity and elements — and the event trace is empty, so no allocation, no
element construction and no destruction occurs. -/
theorem self_assignment_noop (v : Vector T) :
    Vector.CopyAssign true v v = (v, []) ∧
    Vector.MoveAssign true v v = ((v, v), []) := ⟨rfl, rfl⟩

/-- The behaviour of Resize asserted by claim C6: the final size is the
requested one; shrinking keeps the first newSize elements and the event
trace destroys exactly the elements at indices newSize..size_-1, once each,
in order; growing first ensures capacity via Reserve(newSize) (its events
prefix the trace and the final capacity is at least newSize) and then
value-constructs exactly the slots size_..newSize-1. -/
def ResizeStmt (mm : Bool) (dflt : T) (v : Vector T) (newSize : Nat) : Prop :=
  (v.Resize mm dflt newSize).1.size = newSize ∧
  (newSize < v.size →
    (v.Resize mm dflt newSize).1.elems = v.elems.take newSize ∧
    (v.Resize mm dflt newSize).2 = (v.elems.drop newSize).map Event.destroy) ∧
  (v.size ≤ newSize →
    newSize ≤ (v.Resize mm dflt newSize).1.capacity ∧
    (v.Resize mm dflt newSize).1.elems =
      v.elems ++ List.replicate (newSize - v.size) dflt ∧
    (v.Resize mm dflt newSize).2 =
      (v.Reserve mm newSize).2 ++
        (List.replicate (newSize - v.size) dflt).map Event.valueCtor)

/-- Claim C6: Resize destructs exactly the trimmed elements when shrinking
and value-initializes exactly the new slots when growing, after ensuring
capacity through Reserve; the size always becomes newSize. -/
theorem Resize_spec (mm : Bool) (dflt : T) (v : Vector T) (newSize : Nat)
    (h : v.WF) : ResizeStmt mm dflt v newSize := by
  unfold ResizeStmt
  refine ⟨?_, ?_, ?_⟩
  · unfold Vector.Resize
    split <;> rfl
  · intro hlt
    unfold Vector.Resize
    rw [if_pos hlt]
    refine ⟨?_, rfl⟩
    rw [h.take_elems (Nat.le_of_lt hlt)]
    exact elems_of_len (v.elems.take newSize) (v.capacity - newSize) newSize
      (by simp [h.elems_length]; try omega)
  · intro hge
    unfold Vector.Resize
    rw [if_neg (by omega)]
    refine ⟨?_, ?_, rfl⟩
    · rw [Resize_grow_data h mm dflt hge]
      have hc := Reserve_capacity h mm newSize
      simp only [Vector.capacity] at hc ⊢
      simp only [List.length_append, List.length_map, List.length_replicate,
        h.elems_length]
      omega
    · rw [Resize_grow_data h mm dflt hge]
      exact elems_of_len (v.elems ++ List.replicate (newSize - v.size) dflt)
        ((v.Reserve mm newSize).1.capacity - newSize) newSize
        (by simp [h.elems_length]; try omega)

/-- Witness for C6, following the scenario of the specification: the vector
of five value-initialized (zero) integers obtained from resize(5) on an
empty vector, resized down to 2. -/
theorem Resize_spec_witness :
    (Vector.mk [some 0, some 0, some 0, some 0, some 0] 5 : Vector Nat).WF ∧
    ResizeStmt true 0
      (Vector.mk [some 0, some 0, some 0, some 0, some 0] 5 : Vector Nat) 2 :=
  ⟨by decide,
   Resize_spec true 0 (Vector.mk [some 0, some 0, some 0, some 0, some 0] 5) 2
     (by decide)⟩

/-- Claim C7: Insert at a valid position of the live range — an index
strictly below size_, the positions begin() up to end() - 1 — followed by
Erase at the same position restores the original element sequence and size
(insert and erase are mutual inverses when nothing intervenes).  The end
position itself lies outside the live range; there, with spare capacity,
the source performs std::move_backward on an inverted range, which is
undefined behaviour and outside this claim. -/
theorem Insert_Erase_restores (mm : Bool) (v : Vector T) (pos : Nat) (x : T)
    (h : v.WF) (hpos : pos < v.size) :
    ((v.Insert mm pos x).Erase pos).elems = v.elems ∧
    ((v.Insert mm pos x).Erase pos).size = v.size := by
  have hple : pos ≤ v.size := Nat.le_of_lt hpos
  have hW : (v.Emplace mm pos x).WF := Emplace_WF h hple (Or.inl hpos) mm x
  have hS : (v.Emplace mm pos x).size = v.size + 1 := Emplace_size mm v pos x
  have hE := Emplace_elems h hple (Or.inl hpos) mm x
  have hlen : (v.elems.take pos).length = pos := by
    simp [h.elems_length]
    try omega
  constructor
  · show ((v.Emplace mm pos x).Erase pos).elems = v.elems
    rw [Erase_elems hW (by rw [hS]; omega), hE,
        List.take_append_of_le_length (by simp [hlen]; try omega),
        List.take_append_of_le_length (by simp [hlen]; try omega),
        List.take_of_length_le (Nat.le_of_eq hlen),
        List.drop_left' (by simp [hlen]; try omega)]
    exact List.take_append_drop pos v.elems
  · show ((v.Emplace mm pos x).Erase pos).size = v.size
    simp [Vector.Erase, hS]

/-- Witness for C7: inserting 99 at position 1 of [1, 2] (with spare
capacity) and erasing it again. -/
theorem Insert_Erase_restores_witness :
    ((Vector.mk [some 1, some 2, none, none] 2 : Vector Nat).WF ∧
     1 < (Vector.mk [some 1, some 2, none, none] 2 : Vector Nat).size) ∧
    (((Vector.mk [some 1, some 2, none, none] 2 : Vector Nat).Insert true 1 99).Erase
        1).elems = (Vector.mk [some 1, some 2, none, none] 2 : Vector Nat).elems ∧
    (((Vector.mk [some 1, some 2, none, none] 2 : Vector Nat).Insert true 1 99).Erase
        1).size = (Vector.mk [some 1, some 2, none, none] 2 : Vector Nat).size :=
  ⟨⟨by decide, by decide⟩,
   Insert_Erase_restores true (Vector.mk [some 1, some 2, none, none] 2) 1 99
     (by decide) (by decide)⟩

/-- Invariant preservation across the public interface: every public
operation of the source, applied to well-formed vectors within its defined
domain, yields well-formed results — size_ never exceeds the capacity, the
first size_ slots hold constructed objects and the remaining slots are raw
memory.  For Emplace and Insert the defined domain excludes the end
position on a partially filled vector (0 < size_ < capacity and
pos = size_), where the source runs std::move_backward on an inverted
range — undefined behaviour, the code bug recorded for claim C8. -/
def PreservationStmt (mm : Bool) (dflt x : T) (v w : Vector T) (n pos : Nat) : Prop :=
  (defaultVector : Vector T).WF ∧
  (sizedVector dflt n).WF ∧
  (vecCopy v).WF ∧
  (v.MoveCtor).1.WF ∧
  (v.MoveCtor).2.WF ∧
  (Vector.CopyAssign false v w).1.WF ∧
  (Vector.CopyAssign true v v).1.WF ∧
  (Vector.MoveAssign false v w).1.1.WF ∧
  (Vector.MoveAssign false v w).1.2.WF ∧
  (Vector.SwapPair v w).1.WF ∧
  (Vector.SwapPair v w).2.WF ∧
  (v.Reserve mm n).1.WF ∧
  (v.Resize mm dflt n).1.WF ∧
  (v.EmplaceBack mm x).WF ∧
  (v.PushBack mm x).WF ∧
  (0 < v.size → (v.PopBack).1.WF) ∧
  (pos ≤ v.size → pos < v.size ∨ v.size = v.capacity ∨ v.size = 0 →
    (v.Emplace mm pos x).WF) ∧
  (pos ≤ v.size → pos < v.size ∨ v.size = v.capacity ∨ v.size = 0 →
    (v.Insert mm pos x).WF) ∧
  (pos < v.size → (v.Erase pos).WF)

/-- The invariant 0 ≤ size ≤ capacity with exactly the slots 0..size-1
constructed is preserved by every public operation of Vector invoked
within its defined domain; this is the statement of claim C8 narrowed to
exclude the undefined Emplace/Insert case recorded as a code bug. -/
theorem invariant_preserved (mm : Bool) (dflt x : T) (v w : Vector T)
    (n pos : Nat) (hv : v.WF) (hw : w.WF) :
    PreservationStmt mm dflt x v w n pos :=
  ⟨defaultVector_WF, sizedVector_WF dflt n, vecCopy_WF hv, hv, MoveCtor_src_WF v,
   CopyAssign_WF hv hw false, hv, hw, hv, hw, hv,
   Reserve_WF hv mm n, Resize_WF hv mm dflt n,
   EmplaceBack_WF hv mm x, EmplaceBack_WF hv mm x,
   fun h0 => PopBack_WF hv h0,
   fun hp hd => Emplace_WF hv hp hd mm x,
   fun hp hd => Emplace_WF hv hp hd mm x,
   fun hp => Erase_WF hv hp⟩

/-- Claim C8 is violated by the source, which is a bug in the code, not in
the claim: Emplace (and Insert, which delegates to it) on a vector with
spare capacity, called at the end position pos_index = size_ — a call the
public interface permits — executes std::move_backward on the inverted
range from begin() + size_ down to end() - 2 (line 417; the
std::copy_backward branch at line 420 is identical), after move-assigning
into the raw slot at line 409: undefined behaviour, so this public
operation does not preserve the class invariant.  Evaluating the model at
the failing input — the vector [1, 2] with size 2 and capacity 4,
Emplace at position 2 — produces the explicitly invalid state the model
assigns to undefined executions, and the invariant fails on it. -/
theorem Emplace_at_end_spare_capacity_undefined :
    ¬ ((Vector.mk [some 1, some 2, none, none] 2 : Vector Nat).Emplace
        true 2 9).WF := by decide

/-- Witness instantiating the narrowed invariant-preservation statement at
concrete well-formed vectors. -/
theorem invariant_preserved_witness :
    ((Vector.mk [some 1, some 2, none] 2 : Vector Nat).WF ∧
     (Vector.mk [some 9] 1 : Vector Nat).WF) ∧
    PreservationStmt true 0 7 (Vector.mk [some 1, some 2, none] 2 : Vector Nat)
      (Vector.mk [some 9] 1) 3 1 :=
  ⟨⟨by decide, by decide⟩,
   invariant_preserved true 0 7 (Vector.mk [some 1, some 2, none] 2)
     (Vector.mk [some 9] 1) 3 1 (by decide) (by decide)⟩

end AdvVector
